import Mathlib

/-!
# The codec seam of `server.go`

A shallow embedding of `Server.Decode`, `Server.Encode`, the three pool
acquire/release pairs, `writeErrorResponse`, `writeResponse` and the server
construction of `serve`, followed by the theorems about them.

State is passed explicitly in a `World`: the server (configuration, pools,
handlers), the connection, the heap of `bytes.Buffer` values that
`bufio.Writer` sinks point into, and an event trace that records the calls
the codec makes (pool operations, handler calls, parser calls, serialised
responses).

The collaborators that live outside this repository are modelled as follows.
* `sync.Pool`: a list of recycled objects; `Get` is driven by an oracle that
  says which pooled object (if any) is handed out, so every statement holds
  for every behaviour of the pool.
* `bufio.Reader`, `bufio.Writer`, `bytes.Buffer`: small models of the Go
  standard library types, with the writer's sink held by address.
* the HTTP parser and serialiser of `fasthttp`: parameters (`Parser`).
* `gnet.Conn`: a readable buffer and a context slot.
-/

namespace Fiber

/-- Byte strings; each element is one byte value. -/
abbrev Bytes := List Nat

/-- Go `error` values (nil is `none` in an `Option Error`). -/
abbrev Error := String

/-- Addresses of `bytes.Buffer` values; address `0` is the nil pointer. -/
abbrev Addr := Nat

/-- The heap of `bytes.Buffer` contents, by address. -/
abbrev Heap := Addr → Bytes

/-- The method `(*bytes.Buffer).Write`: append, never an error. -/
def Heap.Write (h : Heap) (a : Addr) (p : Bytes) : Heap :=
  fun x => if x = a then h a ++ p else h x

/-! ## `sync.Pool` -/

/-- A `sync.Pool`: the objects currently cached. -/
abbrev Pool (α : Type) := List α

/-- The method `Pool.Get`. The oracle `pick` chooses which cached object is handed
out; `none`, or an index past the end, is a miss (Go may drop cached objects
at any time, so a miss is possible even when objects were put). -/
def Pool.Get {α : Type} (p : Pool α) (pick : Option Nat) : Option α × Pool α :=
  match pick with
  | none => (none, p)
  | some i =>
    match p.get? i with
    | none => (none, p)
    | some x => (some x, p.eraseIdx i)

/-- The method `Pool.Put`. -/
def Pool.Put {α : Type} (p : Pool α) (x : α) : Pool α := x :: p

/-! ## `bufio` -/

namespace bufio

/-- A `bufio.Reader`: buffer size, the unread bytes it holds, and the unread
bytes of the source it wraps. -/
structure Reader where
  size : Nat
  buffered : Bytes
  rd : Bytes
deriving DecidableEq, Repr

/-- The Go constant `minReadBufferSize` of package `bufio`. -/
def minReadBufferSize : Int := 16

/-- The function `bufio.NewReaderSize`. -/
def NewReaderSize (rd : Bytes) (size : Int) : Reader :=
  { size := (if size < minReadBufferSize then minReadBufferSize else size).toNat,
    buffered := [], rd := rd }

/-- The method `(*bufio.Reader).Reset`: drop buffered data, read from `rd`. -/
def Reader.Reset (b : Reader) (rd : Bytes) : Reader :=
  { b with buffered := [], rd := rd }

/-- A `bufio.Writer`: buffer size, the bytes buffered and not yet flushed
(`b.buf[:b.n]`), and the address of the `bytes.Buffer` it writes to. The sink
is always a `bytes.Buffer`, whose `Write` never fails, so the sticky `err`
field stays nil and is not represented. -/
structure Writer where
  size : Nat
  buf : Bytes
  wr : Addr
deriving DecidableEq, Repr

/-- The Go constant `defaultBufSize` of package `bufio`. -/
def defaultBufSize : Int := 4096

/-- The function `bufio.NewWriterSize`. -/
def NewWriterSize (wr : Addr) (size : Int) : Writer :=
  { size := (if size ≤ 0 then defaultBufSize else size).toNat, buf := [], wr := wr }

/-- The method `(*bufio.Writer).Reset`: discard unflushed data, write to `wr`. -/
def Writer.Reset (b : Writer) (wr : Addr) : Writer :=
  { b with buf := [], wr := wr }

/-- The method `(*bufio.Writer).Buffered`. -/
def Writer.Buffered (b : Writer) : Nat := b.buf.length

/-- The method `(*bufio.Writer).Available`. -/
def Writer.Available (b : Writer) : Nat := b.size - b.buf.length

/-- The method `(*bufio.Writer).Flush`. -/
def Writer.Flush (b : Writer) (h : Heap) : Writer × Heap :=
  if b.Buffered = 0 then (b, h)
  else ({ b with buf := [] }, h.Write b.wr b.buf)

/-- The method `(*bufio.Writer).Write`. Go loops while `len(p) > b.Available()`:
with an empty buffer the whole of `p` goes straight to the sink, otherwise the
buffer is filled and flushed; the rest of `p` is then copied into the buffer.
The loop runs at most twice, which is unrolled here. -/
def Writer.Write (b : Writer) (h : Heap) (p : Bytes) : Writer × Heap :=
  if p.length > b.Available then
    if b.Buffered = 0 then (b, h.Write b.wr p)
    else
      let n := b.Available
      let bh := Writer.Flush { b with buf := b.buf ++ p.take n } h
      let p1 := p.drop n
      if p1.length > bh.1.Available then
        if bh.1.Buffered = 0 then (bh.1, bh.2.Write bh.1.wr p1)
        else ({ bh.1 with buf := bh.1.buf ++ p1 }, bh.2)
      else ({ bh.1 with buf := bh.1.buf ++ p1 }, bh.2)
  else ({ b with buf := b.buf ++ p }, h)

/-- One call that a response serialiser makes on the writer it is given. -/
inductive Op where
  | Write (p : Bytes)
  | Flush
deriving DecidableEq, Repr

/-- Run one serialiser call on a writer. -/
def Writer.run (b : Writer) (h : Heap) : Op → Writer × Heap
  | Op.Write p => b.Write h p
  | Op.Flush => b.Flush h

/-- Run a sequence of serialiser calls on a writer, in order. -/
def Writer.runAll (b : Writer) (h : Heap) : List Op → Writer × Heap
  | [] => (b, h)
  | op :: ops => Writer.runAll (b.run h op).1 (b.run h op).2 ops

/-- The bytes a sequence of serialiser calls hands to the writer. -/
def written : List Op → Bytes
  | [] => []
  | Op.Write p :: ops => p ++ written ops
  | Op.Flush :: ops => written ops

end bufio

/-! ## `fasthttp` -/

namespace fasthttp

/-- The fields of `fasthttp.RequestHeader` that the development observes. -/
structure RequestHeader where
  method : Bytes
  requestURI : Bytes
  contentLength : Int
  connectionClose : Bool
  h : List (Bytes × Bytes)
deriving DecidableEq, Repr

/-- The method `(*RequestHeader).Reset`: back to the zero header. -/
def RequestHeader.Reset (_ : RequestHeader) : RequestHeader :=
  { method := [], requestURI := [], contentLength := 0, connectionClose := false, h := [] }

/-- The fields of `fasthttp.Request` that the development observes. -/
structure Request where
  Header : RequestHeader
  body : Bytes
deriving DecidableEq, Repr

/-- The method `(*Request).Reset`. -/
def Request.Reset (r : Request) : Request :=
  { Header := r.Header.Reset, body := [] }

/-- The fields of `fasthttp.ResponseHeader` that the development observes;
`connectionClose` is the flag that makes the serialiser emit
`Connection: close`. -/
structure ResponseHeader where
  statusCode : Nat
  connectionClose : Bool
  server : Bytes
  h : List (Bytes × Bytes)
deriving DecidableEq, Repr

/-- The method `(*ResponseHeader).SetServerBytes`. -/
def ResponseHeader.SetServerBytes (h : ResponseHeader) (server : Bytes) : ResponseHeader :=
  { h with server := server }

/-- The method `(*ResponseHeader).SetConnectionClose`. -/
def ResponseHeader.SetConnectionClose (h : ResponseHeader) : ResponseHeader :=
  { h with connectionClose := true }

/-- The method `(*ResponseHeader).Reset`: back to the zero header. -/
def ResponseHeader.Reset (_ : ResponseHeader) : ResponseHeader :=
  { statusCode := 0, connectionClose := false, server := [], h := [] }

/-- The fields of `fasthttp.Response` that the development observes. -/
structure Response where
  Header : ResponseHeader
  body : Bytes
deriving DecidableEq, Repr

/-- The method `(*Response).SetConnectionClose`. -/
def Response.SetConnectionClose (r : Response) : Response :=
  { r with Header := r.Header.SetConnectionClose }

/-- The method `(*Response).Reset`. -/
def Response.Reset (r : Response) : Response :=
  { Header := r.Header.Reset, body := [] }

/-- The type `fasthttp.RequestCtx`: it has a `Request` and a `Response` of its own. -/
structure RequestCtx where
  Request : Request
  Response : Response
deriving DecidableEq, Repr

/-- The method `(*fasthttp.RequestCtx).SetConnectionClose`, whose body is
`ctx.Response.SetConnectionClose()`: the receiver is the `fasthttp.RequestCtx`,
so the response it marks is that value's own `Response` field. -/
def RequestCtx.SetConnectionClose (ctx : RequestCtx) : RequestCtx :=
  { ctx with Response := ctx.Response.SetConnectionClose }

/-- The constant `fasthttp.DefaultMaxRequestBodySize`. -/
def DefaultMaxRequestBodySize : Int := 4 * 1024 * 1024

/-- The configuration fields of `fasthttp.Server` that `server.go` has access
to through the embedding. -/
structure Server where
  ReadBufferSize : Int
  WriteBufferSize : Int
  ReduceMemoryUsage : Bool
  MaxRequestBodySize : Int
  GetOnly : Bool
  DisablePreParseMultipartForm : Bool
deriving DecidableEq, Repr

/-- The wire functions of `fasthttp` that the codec drives, as parameters.
* `HeaderRead` is `(*RequestHeader).Read(br)`: the header after the call, the
  reader after the call, and the error.
* `ContinueReadBody` is `(*Request).ContinueReadBody(br, maxBodySize,
  preParseMultipartForm...)`, with the two values that line 57 gives for the
  variadic parameter (`s.GetOnly` and `!s.DisablePreParseMultipartForm`).
* `ResponseWrite` is `(*Response).Write(w)`: the calls it makes on the writer,
  in order, and the error it returns. -/
structure Parser where
  HeaderRead : RequestHeader → bufio.Reader → RequestHeader × bufio.Reader × Option Error
  ContinueReadBody :
    Request → bufio.Reader → Int → Bool → Bool → Request × bufio.Reader × Option Error
  ResponseWrite : Response → List bufio.Op × Option Error

end fasthttp

/-! ## The types of `server.go` -/

/-- The type `Request` of `server.go`: embeds `fasthttp.Request`. The back
pointer `s` is not represented: one server is in play and it is passed
explicitly. -/
structure Request extends fasthttp.Request where
  keepBodyBuffer : Bool
deriving DecidableEq, Repr

/-- The promoted method `Reset` of the embedded `fasthttp.Request`. -/
def Request.Reset (r : Request) : Request :=
  { r with toRequest := r.toRequest.Reset }

/-- The type `Response` of `server.go`: embeds `fasthttp.Response`. -/
structure Response extends fasthttp.Response where
  keepBodyBuffer : Bool
deriving DecidableEq, Repr

/-- The promoted method `Reset` of the embedded `fasthttp.Response`. -/
def Response.Reset (r : Response) : Response :=
  { r with toResponse := r.toResponse.Reset }

/-- The type `RequestCtx` of `server.go`. The field `embedded` is the embedded
`fasthttp.RequestCtx` (Go names it `RequestCtx`); the fields `Request` and
`Response` declared next to it shadow the ones inside `embedded`, so
`ctx.Response` is the outer field, while a method promoted from the embedded
value acts on `embedded`. `c` is the connection (nil is `none`), `reader` the
bytes of the `bytes.Reader`, `writer` the address of the `bytes.Buffer`. The
back pointer `s` is not represented. -/
structure RequestCtx where
  embedded : fasthttp.RequestCtx
  Request : Request
  Response : Response
  c : Option Nat
  reader : Bytes
  writer : Addr
deriving DecidableEq, Repr

/-- The promoted method `ctx.SetConnectionClose()`: `RequestCtx` declares no such
method, `Request` and `Response` are named fields (nothing is promoted from
them), so the call resolves to the method of the embedded
`fasthttp.RequestCtx`. -/
def RequestCtx.SetConnectionClose (ctx : RequestCtx) : RequestCtx :=
  { ctx with embedded := ctx.embedded.SetConnectionClose }

/-- The type `RequestHandler`: the handler receives the context by pointer; the
function gives the context after the call. -/
abbrev RequestHandler := RequestCtx → RequestCtx

/-- A handler call on `ctx`. The handler works on the exported part of the
context; the unexported fields (`c`, `reader`, `writer` and the two
`keepBodyBuffer` flags) keep their values. -/
def RequestCtx.call (ctx : RequestCtx) (f : RequestCtx → RequestCtx) : RequestCtx :=
  { f ctx with
    Request := { (f ctx).Request with keepBodyBuffer := ctx.Request.keepBodyBuffer },
    Response := { (f ctx).Response with keepBodyBuffer := ctx.Response.keepBodyBuffer },
    c := ctx.c, reader := ctx.reader, writer := ctx.writer }

/-- The type `Server` of `server.go`. A nil function value is `none`. -/
structure Server extends fasthttp.Server where
  ctxPool : Pool RequestCtx
  readerPool : Pool bufio.Reader
  writerPool : Pool bufio.Writer
  Handler : Option RequestHandler
  ErrorHandler : Option (RequestCtx → Error → RequestCtx)

/-- A `gnet.Conn`: an identity, the readable buffer, and the context slot. -/
structure Conn where
  id : Nat
  inbound : Bytes
  ctx : Option Nat
deriving DecidableEq, Repr

/-- The method `c.Read()`: all the bytes currently readable. -/
def Conn.Read (c : Conn) : Bytes := c.inbound

/-- The method `c.ResetBuffer()`. -/
def Conn.ResetBuffer (c : Conn) : Conn := { c with inbound := [] }

/-- The method `c.Context()`. -/
def Conn.Context (c : Conn) : Option Nat := c.ctx

/-- The three pools of a server. -/
inductive PoolId where
  | ctx
  | reader
  | writer
deriving DecidableEq, Repr

/-- The calls the codec makes, as recorded in the trace. `HeaderRead` and
`ContinueReadBody` record the arguments the body reader was given and the
error each parser call returned; `ErrorHandler` and `Handler` record the call
expressions `s.ErrorHandler(ctx, err)` and `s.Handler(ctx)`; `ResponseWrite`
records the response value handed to the serialiser and the writer calls the
serialiser made. -/
inductive Event where
  | ResetBuffer
  | Get (p : PoolId)
  | Put (p : PoolId)
  | HeaderRead (err : Option Error)
  | ContinueReadBody (maxRequestBodySize : Int) (getOnly : Bool)
      (preParseMultipartForm : Bool) (err : Option Error)
  | ErrorHandler (err : Error)
  | Handler
  | ResponseWrite (resp : Response) (ops : List bufio.Op)
deriving DecidableEq, Repr

/-- The state the codec runs in. -/
structure World where
  s : Server
  c : Conn
  heap : Heap
  nextAddr : Addr
  trace : List Event

/-- Append an event to the trace. -/
def World.log (w : World) (e : Event) : World :=
  { w with trace := w.trace ++ [e] }

/-- The reactor makes `input` readable on the connection. -/
def World.deliver (w : World) (input : Bytes) : World :=
  { w with c := { w.c with inbound := input } }

/-- What each of the three pools hands out on the next `Get`. -/
structure Oracle where
  ctx : Option Nat
  reader : Option Nat
  writer : Option Nat
deriving DecidableEq, Repr

/-! ## The functions of `server.go` -/

/-- Modelled from the spec: the package constant `defaultReadBufferSize` is
declared outside `server.go`; the spec gives the built-in default as 4096. -/
def defaultReadBufferSize : Int := 4096

/-- Modelled from the spec: the package constant `defaultWriteBufferSize` is
declared outside `server.go`; the spec gives the built-in default as 4096. -/
def defaultWriteBufferSize : Int := 4096

/-- Modelled from the spec: the helper `getBytes` is declared outside
`server.go`; it gives the bytes of a string (a non-nil slice for a non-empty
string). -/
def getBytes (s : String) : Bytes := s.toList.map Char.toNat

/-- The zero value of `RequestCtx`, as `&RequestCtx{s: s}` builds it. -/
def RequestCtx.zero : RequestCtx :=
  { embedded :=
      { Request :=
          { Header := { method := [], requestURI := [], contentLength := 0,
                        connectionClose := false, h := [] },
            body := [] },
        Response :=
          { Header := { statusCode := 0, connectionClose := false, server := [], h := [] },
            body := [] } },
    Request :=
      { Header := { method := [], requestURI := [], contentLength := 0,
                    connectionClose := false, h := [] },
        body := [], keepBodyBuffer := false },
    Response :=
      { Header := { statusCode := 0, connectionClose := false, server := [], h := [] },
        body := [], keepBodyBuffer := false },
    c := none, reader := [], writer := 0 }

/-- The method `Server.Encode`. -/
def Encode (_hc : Server) (c : Conn) (buf : Bytes) : Bytes × Option Error :=
  if c.Context = none then
    (buf, none)
  else
    (buf, none)

/-- The method `Server.acquireCtx`. -/
def acquireCtx (w : World) (pick : Option Nat) : RequestCtx × World :=
  let v := w.s.ctxPool.Get pick
  let w1 := { w with s := { w.s with ctxPool := v.2 } }.log (Event.Get PoolId.ctx)
  let ctx : RequestCtx :=
    match v.1 with
    | none =>
      let ctx := RequestCtx.zero
      let keepBodyBuffer := !w.s.ReduceMemoryUsage
      { ctx with
        Request := { ctx.Request with keepBodyBuffer := keepBodyBuffer },
        Response := { ctx.Response with keepBodyBuffer := keepBodyBuffer } }
    | some ctx => ctx
  ({ ctx with c := some w.c.id }, w1)

/-- The function `acquireReader`. -/
def acquireReader (w : World) (ctx : RequestCtx) (pick : Option Nat) : bufio.Reader × World :=
  let v := w.s.readerPool.Get pick
  let w1 := { w with s := { w.s with readerPool := v.2 } }.log (Event.Get PoolId.reader)
  let br : bufio.Reader :=
    match v.1 with
    | none =>
      let n := w.s.ReadBufferSize
      let n := if n ≤ 0 then defaultReadBufferSize else n
      bufio.NewReaderSize ctx.reader n
    | some r => r.Reset ctx.reader
  (br, w1)

/-- The function `releaseReader`. -/
def releaseReader (w : World) (r : bufio.Reader) : World :=
  { w with s := { w.s with readerPool := w.s.readerPool.Put r } }.log (Event.Put PoolId.reader)

/-- The function `acquireWriter`. -/
def acquireWriter (w : World) (ctx : RequestCtx) (pick : Option Nat) : bufio.Writer × World :=
  let v := w.s.writerPool.Get pick
  let w1 := { w with s := { w.s with writerPool := v.2 } }.log (Event.Get PoolId.writer)
  let bw : bufio.Writer :=
    match v.1 with
    | none =>
      let n := w.s.WriteBufferSize
      let n := if n ≤ 0 then defaultWriteBufferSize else n
      bufio.NewWriterSize ctx.writer n
    | some b => b.Reset ctx.writer
  (bw, w1)

/-- The function `releaseWriter`. -/
def releaseWriter (w : World) (b : bufio.Writer) : World :=
  { w with s := { w.s with writerPool := w.s.writerPool.Put b } }.log (Event.Put PoolId.writer)

/-- The method `Server.releaseCtx`. -/
def releaseCtx (w : World) (ctx : RequestCtx) : World :=
  let ctx := { ctx with c := none }
  { w with s := { w.s with ctxPool := w.s.ctxPool.Put ctx } }.log (Event.Put PoolId.ctx)

/-- What `writeResponse` leaves behind: the error, the context, the writer and
the world. -/
structure Written where
  err : Option Error
  ctx : RequestCtx
  bw : bufio.Writer
  w : World

/-- The function `writeResponse`: serialise `ctx.Response` (the outer field)
through `bw`, then reset it. -/
def writeResponse (lib : fasthttp.Parser) (w : World) (ctx : RequestCtx)
    (bw : bufio.Writer) : Written :=
  let r := lib.ResponseWrite ctx.Response.toResponse
  let bh := bw.runAll w.heap r.1
  { err := r.2,
    ctx := { ctx with Response := ctx.Response.Reset },
    bw := bh.1,
    w := { w with heap := bh.2 }.log (Event.ResponseWrite ctx.Response r.1) }

/-- What `writeErrorResponse` leaves behind; `ret` is `none` when the call of
`s.ErrorHandler` panicked (nil function value), else the context and the
writer it returns. -/
structure ErrorWritten where
  ret : Option (RequestCtx × bufio.Writer)
  w : World

/-- The method `Server.writeErrorResponse`. `bw` and `serverName` may be nil
(`none`). -/
def writeErrorResponse (lib : fasthttp.Parser) (o : Oracle) (w : World)
    (bw : Option bufio.Writer) (ctx : RequestCtx) (serverName : Option Bytes)
    (err : Error) : ErrorWritten :=
  let w := w.log (Event.ErrorHandler err)
  match w.s.ErrorHandler with
  | none => { ret := none, w := w }
  | some errorHandler =>
    let ctx := ctx.call (fun x => errorHandler x err)
    let ctx : RequestCtx :=
      match serverName with
      | some name =>
        { ctx with Response :=
            { ctx.Response with Header := ctx.Response.Header.SetServerBytes name } }
      | none => ctx
    let ctx := ctx.SetConnectionClose
    let a : bufio.Writer × World :=
      match bw with
      | none => acquireWriter w ctx o.writer
      | some bw => (bw, w)
    let r := writeResponse lib a.2 ctx a.1
    let f := r.bw.Flush r.w.heap
    { ret := some (r.ctx, f.1), w := { r.w with heap := f.2 } }

/-- How a `Decode` call ends: it returns `(out, err)`, or it panics on the call
of a nil function value, or `log.Fatal` ends the process. -/
inductive Exit where
  | returned (out : Bytes) (err : Option Error)
  | panic
  | fatal (err : Error)
deriving DecidableEq, Repr

/-- The end of a `Decode` call and the world it leaves. -/
structure Result where
  exit : Exit
  w : World

/-- Lines 67 to 88 of `Server.Decode`: from `br = nil` and the call of
`s.Handler` to the return. `br` is nil from the first line on, so the guarded
second `releaseReader` is the `none` branch; `bw` and `ctx` are not nil. -/
def Decode.finish (lib : fasthttp.Parser) (w : World) (ctx : RequestCtx)
    (bw : bufio.Writer) : Result :=
  let br : Option bufio.Reader := none
  let w := w.log Event.Handler
  match w.s.Handler with
  | none => { exit := Exit.panic, w := w }
  | some handler =>
    let ctx := ctx.call handler
    let r := writeResponse lib w ctx bw
    match r.err with
    | some err => { exit := Exit.fatal err, w := r.w }
    | none =>
      let f := r.bw.Flush r.w.heap
      let w := { r.w with heap := f.2 }
      let out := w.heap r.ctx.writer
      let w :=
        match br with
        | some b => releaseReader w b
        | none => w
      let w := releaseWriter w f.1
      let ctx := { r.ctx with Request := r.ctx.Request.Reset }
      let w := releaseCtx w ctx
      { exit := Exit.returned out none, w := w }

/-- What lines 43 to 62 of `Server.Decode` leave behind: the parse error, the
context, the buffered writer and the world. -/
structure Parsed where
  err : Option Error
  ctx : RequestCtx
  bw : bufio.Writer
  w : World

/-- Lines 43 to 62 of `Server.Decode`, for the non-empty input `buf`: acquire the
context, install reader and writer, acquire the buffered reader, read the
headers and (when they parse) the body, release the buffered reader, acquire
the buffered writer. `bytes.NewBuffer(out)` is called while the named result
`out` is still nil, so the new buffer is empty; it is allocated at the next
free address. The guards `br == nil` and `bw == nil` test variables declared
nil just above them. -/
def Decode.parse (lib : fasthttp.Parser) (o : Oracle) (w : World) (buf : Bytes) : Parsed :=
  let a := acquireCtx w o.ctx
  let ctx := { a.1 with reader := buf }
  let addr := a.2.nextAddr + 1
  let w := { a.2 with heap := fun x => if x = addr then [] else a.2.heap x, nextAddr := addr }
  let ctx := { ctx with writer := addr }
  let b := acquireReader w ctx o.reader
  let h := lib.HeaderRead ctx.Request.Header b.1
  let w := b.2.log (Event.HeaderRead h.2.2)
  let ctx := { ctx with Request := { ctx.Request with Header := h.1 } }
  let p : fasthttp.Request × bufio.Reader × Option Error × World :=
    match h.2.2 with
    | none =>
      let maxRequestBodySize := fasthttp.DefaultMaxRequestBodySize
      let getOnly := w.s.GetOnly
      let preParse := !w.s.DisablePreParseMultipartForm
      let r := lib.ContinueReadBody ctx.Request.toRequest h.2.1 maxRequestBodySize
        getOnly preParse
      (r.1, r.2.1, r.2.2,
        w.log (Event.ContinueReadBody maxRequestBodySize getOnly preParse r.2.2))
    | some e => (ctx.Request.toRequest, h.2.1, some e, w)
  let ctx := { ctx with Request := { ctx.Request with toRequest := p.1 } }
  let w := releaseReader p.2.2.2 p.2.1
  let c := acquireWriter w ctx o.writer
  { err := p.2.2.1, ctx := ctx, bw := c.1, w := c.2 }

/-- The method `Server.Decode`. The receiver and the connection are `w.s` and
`w.c`; lines 43 to 62 are `Decode.parse`, lines 67 to 88 are `Decode.finish`. -/
def Decode (lib : fasthttp.Parser) (o : Oracle) (w : World) : Result :=
  let buf := w.c.Read
  let w := { w with c := w.c.ResetBuffer }.log Event.ResetBuffer
  if buf.length = 0 then
    { exit := Exit.returned [] none, w := w }
  else
    let p := Decode.parse lib o w buf
    match p.err with
    | some e =>
      let r := writeErrorResponse lib o p.w (some p.bw) p.ctx (some (getBytes "serverName")) e
      match r.ret with
      | none => { exit := Exit.panic, w := r.w }
      | some (ctx, bw) => Decode.finish lib r.w ctx bw
    | none => Decode.finish lib p.w p.ctx p.bw

/-- The application: `app.Handler()` gives the handler `serve` installs. -/
structure App where
  Handler : Option RequestHandler

/-- The zero value `new(Server)`. -/
def Server.zero : Server :=
  { ReadBufferSize := 0, WriteBufferSize := 0, ReduceMemoryUsage := false,
    MaxRequestBodySize := 0, GetOnly := false, DisablePreParseMultipartForm := false,
    ctxPool := [], readerPool := [], writerPool := [],
    Handler := none, ErrorHandler := none }

/-- What `serve` hands to the reactor: the printed address, the listen address,
the multicore option and the codec. -/
structure Served where
  printed : String
  listen : String
  multicore : Bool
  codec : Server

/-- The function `serve`, up to the call of `gnet.Serve`. -/
def serve (app : App) (addr : String) : Served :=
  let hc := Server.zero
  let hc := { hc with Handler := app.Handler }
  { printed := addr, listen := "tcp://" ++ addr, multicore := true, codec := hc }

/-! ## Reading the trace -/

/-- The events a call added to the trace of `w`. -/
def Result.events (r : Result) (w : World) : List Event :=
  r.w.trace.drop w.trace.length

/-- The number of `Get` calls on pool `p` in a list of events. -/
def gets (p : PoolId) (es : List Event) : Nat := es.count (Event.Get p)

/-- The number of `Put` calls on pool `p` in a list of events. -/
def puts (p : PoolId) (es : List Event) : Nat := es.count (Event.Put p)

/-- The responses handed to the serialiser, in order. -/
def responsesWritten : List Event → List Response
  | [] => []
  | Event.ResponseWrite resp _ :: es => resp :: responsesWritten es
  | _ :: es => responsesWritten es

/-- The bytes the serialiser handed to the writer, in order. -/
def bytesSerialized : List Event → Bytes
  | [] => []
  | Event.ResponseWrite _ ops :: es => bufio.written ops ++ bytesSerialized es
  | _ :: es => bytesSerialized es

/-- The error of the first parser call that returned one, if any. -/
def parseError : List Event → Option Error
  | [] => none
  | Event.HeaderRead (some e) :: _ => some e
  | Event.ContinueReadBody _ _ _ (some e) :: _ => some e
  | _ :: es => parseError es

/-- The arguments each call of the body reader was given: maximum body size,
GET-only flag, multipart pre-parse flag. -/
def bodyReaderArgs : List Event → List (Int × Bool × Bool)
  | [] => []
  | Event.ContinueReadBody m g p _ :: es => (m, g, p) :: bodyReaderArgs es
  | _ :: es => bodyReaderArgs es

/-- Whether `s.Handler(ctx)` was called. -/
def handlerCalled (es : List Event) : Bool := es.contains Event.Handler

/-- Whether `s.ErrorHandler(ctx, err)` was called. -/
def errorHandlerCalled (es : List Event) : Bool :=
  es.any (fun e => match e with | Event.ErrorHandler _ => true | _ => false)

/-! ## Recycled objects against new ones

What is needed to state and prove that a call served with recycled objects
ends as the same call served with new ones. -/

/-- The oracle under which every `Get` misses: the call builds a new context, a
new reader and a new writer. -/
def Oracle.miss : Oracle := { ctx := none, reader := none, writer := none }

/-- A parser that leaves the size of the reader's buffer as it is (no method of
`bufio.Reader` changes it after construction). -/
def fasthttp.Parser.KeepsSize (lib : fasthttp.Parser) : Prop :=
  (∀ hdr br, (lib.HeaderRead hdr br).2.1.size = br.size) ∧
  (∀ req br m g p, (lib.ContinueReadBody req br m g p).2.1.size = br.size)

/-- The context that `writeErrorResponse` serialises: after the error handler,
the Server header and `SetConnectionClose`. -/
def Decode.errorCtx (eh : RequestCtx → Error → RequestCtx) (ctx : RequestCtx) (e : Error) :
    RequestCtx :=
  RequestCtx.SetConnectionClose
    { ctx.call (fun x => eh x e) with
      Response :=
        { (ctx.call (fun x => eh x e)).Response with
          Header := (ctx.call (fun x => eh x e)).Response.Header.SetServerBytes
            (getBytes "serverName") } }

/-- The two parser calls of lines 55 to 58, as a function of the context and
the reader they are made on: the error and the context afterwards. -/
def Decode.parsed (lib : fasthttp.Parser) (s : Server) (ctx : RequestCtx)
    (br : bufio.Reader) : Option Error × RequestCtx :=
  match (lib.HeaderRead ctx.Request.Header br).2.2 with
  | none =>
    ((lib.ContinueReadBody
        { ctx.Request.toRequest with Header := (lib.HeaderRead ctx.Request.Header br).1 }
        (lib.HeaderRead ctx.Request.Header br).2.1 fasthttp.DefaultMaxRequestBodySize
        s.GetOnly (!s.DisablePreParseMultipartForm)).2.2,
      { ctx with Request := { ctx.Request with toRequest :=
          (lib.ContinueReadBody
            { ctx.Request.toRequest with Header := (lib.HeaderRead ctx.Request.Header br).1 }
            (lib.HeaderRead ctx.Request.Header br).2.1 fasthttp.DefaultMaxRequestBodySize
            s.GetOnly (!s.DisablePreParseMultipartForm)).1 } })
  | some e =>
    (some e,
      { ctx with Request := { ctx.Request with
          Header := (lib.HeaderRead ctx.Request.Header br).1 } })

/-- The reader a call acquires for the input `buf`. -/
def Server.reader (s : Server) (pick : Option Nat) (buf : Bytes) : bufio.Reader :=
  match (s.readerPool.Get pick).1 with
  | none =>
    bufio.NewReaderSize buf
      (if s.ReadBufferSize ≤ 0 then defaultReadBufferSize else s.ReadBufferSize)
  | some r => r.Reset buf

namespace Example

/-- Header reader of the toy format: fails on fewer than three bytes or an
unknown method byte. -/
def HeaderRead (hdr : fasthttp.RequestHeader) (br : bufio.Reader) :
    fasthttp.RequestHeader × bufio.Reader × Option Error :=
  match br.buffered ++ br.rd with
  | m :: hi :: lo :: rest =>
    if m = 71 ∨ m = 80 then
      ({ hdr with method := [m], contentLength := ((hi * 256 + lo : Nat) : Int) },
        { br with buffered := rest, rd := [] }, none)
    else (hdr, br, some "malformed request")
  | _ => (hdr, br, some "malformed request")

/-- Body reader of the toy format, after `(*Request).ContinueReadBody`: a declared
body length above a positive `maxBodySize` is rejected, then a body shorter
than declared; there is no GET-only test. The two values given for the
variadic `preParseMultipartForm` concern multipart forms, which the toy format
does not have. -/
def ContinueReadBody (req : fasthttp.Request) (br : bufio.Reader) (maxBodySize : Int)
    (_preParse0 : Bool) (_preParse1 : Bool) :
    fasthttp.Request × bufio.Reader × Option Error :=
  if maxBodySize > 0 ∧ req.Header.contentLength > maxBodySize then
    (req, br, some "body too large")
  else if ((br.buffered ++ br.rd).length : Int) < req.Header.contentLength then
    (req, br, some "unexpected EOF")
  else
    ({ req with body := (br.buffered ++ br.rd).take req.Header.contentLength.toNat },
      { br with buffered := (br.buffered ++ br.rd).drop req.Header.contentLength.toNat,
                rd := [] }, none)

/-- Serialiser of the toy format: the status code (two bytes, big endian),
then the byte `67` (the letter C) when `Connection: close` is set, then the
body. -/
def ResponseWrite (resp : fasthttp.Response) : List bufio.Op × Option Error :=
  ([bufio.Op.Write [resp.Header.statusCode / 256, resp.Header.statusCode % 256],
    bufio.Op.Write (if resp.Header.connectionClose then [67] else []),
    bufio.Op.Write resp.body], none)

/-- The toy parser. -/
def lib : fasthttp.Parser :=
  { HeaderRead := HeaderRead, ContinueReadBody := ContinueReadBody,
    ResponseWrite := ResponseWrite }

/-- A user handler: status 200, body "ok". -/
def handler : RequestHandler :=
  fun ctx => { ctx with Response :=
    { ctx.Response with Header := { ctx.Response.Header with statusCode := 200 },
                        body := [111, 107] } }

/-- An error handler: status 400, body "bad"; it leaves the Connection
header alone. -/
def errorHandler : RequestCtx → Error → RequestCtx :=
  fun ctx _ => { ctx with Response :=
    { ctx.Response with Header := { ctx.Response.Header with statusCode := 400 },
                        body := [98, 97, 100] } }

/-- A server with both handlers installed and empty pools. -/
def server : Server :=
  { Server.zero with Handler := some handler, ErrorHandler := some errorHandler }

/-- A world with `s` as the server and `input` readable on connection 7. -/
def world (s : Server) (input : Bytes) : World :=
  { s := s, c := { id := 7, inbound := input, ctx := none }, heap := fun _ => [],
    nextAddr := 0, trace := [] }

/-- A request whose first byte is no method of the toy format. -/
def malformed : World := world server [1, 0, 0]

/-- A well-formed GET request without body. -/
def get : World := world server [71, 0, 0]

/-- The server is configured with `MaxRequestBodySize = 1024`; the request is a
POST that declares a body of 2000 bytes and carries it. -/
def limited : World :=
  world { server with MaxRequestBodySize := 1024 } ([80, 7, 208] ++ List.replicate 2000 0)

/-- The context that the call on `malformed` puts back into the pool. -/
def recycled : RequestCtx :=
  { RequestCtx.zero with
    embedded := RequestCtx.zero.embedded.SetConnectionClose,
    Request := { RequestCtx.zero.Request with keepBodyBuffer := true },
    Response := { RequestCtx.zero.Response with keepBodyBuffer := true },
    reader := [1, 0, 0], writer := 1 }

/-- A handler that echoes the request body: status 200, body the request body. -/
def echo : RequestHandler :=
  fun ctx => { ctx with Response :=
    { ctx.Response with Header := { ctx.Response.Header with statusCode := 200 },
                        body := ctx.Request.body } }

/-- A POST request with the one-byte body `5` on a server whose handler is
`echo`. -/
def echoPost : World :=
  world { Server.zero with Handler := some echo, ErrorHandler := some errorHandler }
    [80, 0, 1, 5]

/-- An application whose handler is `handler`. -/
def app : App := { Handler := some handler }

/-- The codec that `serve` builds for `app`, with a malformed request readable. -/
def served : World := world (serve app "localhost:3000").codec [1, 0, 0]

/-- The oracle under which every `Get` misses. -/
def miss : Oracle := { ctx := none, reader := none, writer := none }

/-- The oracle under which every `Get` hands out the object put last. -/
def hit : Oracle := { ctx := some 0, reader := some 0, writer := some 0 }

end Example

/-! ## The buffered writer -/

namespace bufio

theorem Writer.Flush_buf (b : Writer) (h : Heap) : (b.Flush h).1.buf = [] := by
  unfold Writer.Flush Writer.Buffered
  split
  · rename_i h0
    exact List.length_eq_zero.mp h0
  · rfl

theorem Writer.Flush_wr (b : Writer) (h : Heap) : (b.Flush h).1.wr = b.wr := by
  unfold Writer.Flush
  split <;> rfl

theorem Writer.Flush_heap (b : Writer) (h : Heap) :
    (b.Flush h).2 b.wr = h b.wr ++ b.buf := by
  unfold Writer.Flush Writer.Buffered
  split
  · rename_i h0
    simp [List.length_eq_zero.mp h0]
  · simp [Heap.Write]

/-- Flushing moves the buffered bytes to the sink: sink plus buffer is unchanged. -/
theorem Writer.Flush_total (b : Writer) (h : Heap) :
    (b.Flush h).2 (b.Flush h).1.wr ++ (b.Flush h).1.buf = h b.wr ++ b.buf := by
  rw [Writer.Flush_wr, Writer.Flush_buf, Writer.Flush_heap, List.append_nil]

theorem Writer.Write_wr (b : Writer) (h : Heap) (p : Bytes) : (b.Write h p).1.wr = b.wr := by
  unfold Writer.Write
  simp only [Writer.Flush_wr]
  split_ifs <;> simp [Writer.Flush_wr]

/-- Writing `p` adds exactly `p` after what the sink and the buffer held. -/
theorem Writer.Write_total (b : Writer) (h : Heap) (p : Bytes) :
    (b.Write h p).2 (b.Write h p).1.wr ++ (b.Write h p).1.buf = h b.wr ++ b.buf ++ p := by
  rw [Writer.Write_wr]
  by_cases h1 : p.length > b.Available
  · by_cases h2 : b.Buffered = 0
    · simp [Writer.Write, h1, h2, Heap.Write, List.length_eq_zero.mp h2]
    · have hw := Writer.Flush_wr { b with buf := b.buf ++ List.take b.Available p } h
      have hb := Writer.Flush_buf { b with buf := b.buf ++ List.take b.Available p } h
      have hh := Writer.Flush_heap { b with buf := b.buf ++ List.take b.Available p } h
      simp only [Writer.Write, if_pos h1, if_neg h2]
      generalize Writer.Flush { b with buf := b.buf ++ List.take b.Available p } h = c at hw hb hh
      obtain ⟨c1, c2⟩ := c
      simp only at hw hb hh
      have hsplit : h b.wr ++ b.buf ++ p
          = h b.wr ++ (b.buf ++ List.take b.Available p) ++ List.drop b.Available p := by
        simp [List.append_assoc]
      split_ifs <;> simp [Heap.Write, hw, hb, hh, hsplit]
  · simp [Writer.Write, h1]

theorem Writer.run_wr (b : Writer) (h : Heap) (op : Op) : (b.run h op).1.wr = b.wr := by
  cases op
  · exact Writer.Write_wr b h _
  · exact Writer.Flush_wr b h

theorem Writer.runAll_wr (b : Writer) (h : Heap) (ops : List Op) :
    (b.runAll h ops).1.wr = b.wr := by
  induction ops generalizing b h with
  | nil => rfl
  | cons op ops ih =>
    simp only [Writer.runAll]
    rw [ih, Writer.run_wr]

/-- A run of serialiser calls adds exactly the bytes it was handed, in order. -/
theorem Writer.runAll_total (b : Writer) (h : Heap) (ops : List Op) :
    (b.runAll h ops).2 (b.runAll h ops).1.wr ++ (b.runAll h ops).1.buf
      = h b.wr ++ b.buf ++ written ops := by
  induction ops generalizing b h with
  | nil => simp [Writer.runAll, written]
  | cons op ops ih =>
    simp only [Writer.runAll]
    rw [ih]
    cases op with
    | Write p =>
      simp only [Writer.run, written]
      rw [Writer.Write_total]
      simp [List.append_assoc]
    | Flush =>
      simp only [Writer.run, written]
      rw [Writer.Flush_total]

end bufio

/-! ## The phases of `Decode` -/

/-- The trace that lines 43 to 62 add: the two acquisitions, the parser calls
(the body reader only when the headers parsed, with the arguments it is
given), the release of the reader and the acquisition of the writer. -/
theorem Decode.parse_trace (lib : fasthttp.Parser) (o : Oracle) (w : World) (buf : Bytes) :
    ∃ pe : List Event,
      (Decode.parse lib o w buf).w.trace
        = w.trace ++ ([Event.Get PoolId.ctx, Event.Get PoolId.reader] ++ pe
            ++ [Event.Put PoolId.reader, Event.Get PoolId.writer]) ∧
      ((∃ e, pe = [Event.HeaderRead (some e)] ∧ (Decode.parse lib o w buf).err = some e) ∨
        pe = [Event.HeaderRead none,
              Event.ContinueReadBody fasthttp.DefaultMaxRequestBodySize w.s.GetOnly
                (!w.s.DisablePreParseMultipartForm) (Decode.parse lib o w buf).err]) := by
  simp only [Decode.parse, acquireCtx, acquireReader, acquireWriter, releaseReader, World.log]
  split
  · rename_i hh
    refine ⟨_, ?_, Or.inr rfl⟩
    simp [hh]
  · rename_i e hh
    refine ⟨_, ?_, Or.inl ⟨e, rfl, rfl⟩⟩
    simp [hh]

/-- What lines 43 to 62 leave in the world: the context and writer pools have
given one object each, the handlers and the connection are untouched, and the
writer is empty and points at the empty accumulator of the context. -/
theorem Decode.parse_frame (lib : fasthttp.Parser) (o : Oracle) (w : World) (buf : Bytes) :
    (Decode.parse lib o w buf).w.s.ctxPool = (w.s.ctxPool.Get o.ctx).2 ∧
    (Decode.parse lib o w buf).w.s.writerPool = (w.s.writerPool.Get o.writer).2 ∧
    (Decode.parse lib o w buf).w.s.Handler = w.s.Handler ∧
    (Decode.parse lib o w buf).w.s.ErrorHandler = w.s.ErrorHandler ∧
    (Decode.parse lib o w buf).w.c = w.c ∧
    (Decode.parse lib o w buf).bw.buf = [] ∧
    (Decode.parse lib o w buf).bw.wr = (Decode.parse lib o w buf).ctx.writer ∧
    (Decode.parse lib o w buf).w.heap (Decode.parse lib o w buf).ctx.writer = [] := by
  simp only [Decode.parse, acquireCtx, acquireReader, acquireWriter, releaseReader, World.log]
  split <;> (refine ⟨rfl, rfl, rfl, rfl, rfl, ?_, ?_, ?_⟩) <;> first | (split <;> rfl) | simp

/-- The function `writeResponse`: one serialiser call on the outer response, which is
then reset; the bytes handed to the writer follow what sink and buffer held. -/
theorem writeResponse_spec (lib : fasthttp.Parser) (w : World) (ctx : RequestCtx)
    (bw : bufio.Writer) :
    (writeResponse lib w ctx bw).w.trace
      = w.trace ++ [Event.ResponseWrite ctx.Response
          (lib.ResponseWrite ctx.Response.toResponse).1] ∧
    (writeResponse lib w ctx bw).w.s = w.s ∧
    (writeResponse lib w ctx bw).w.c = w.c ∧
    (writeResponse lib w ctx bw).bw.wr = bw.wr ∧
    (writeResponse lib w ctx bw).ctx = { ctx with Response := ctx.Response.Reset } ∧
    (writeResponse lib w ctx bw).err = (lib.ResponseWrite ctx.Response.toResponse).2 ∧
    (writeResponse lib w ctx bw).w.heap bw.wr ++ (writeResponse lib w ctx bw).bw.buf
      = w.heap bw.wr ++ bw.buf
          ++ bufio.written (lib.ResponseWrite ctx.Response.toResponse).1 := by
  refine ⟨rfl, rfl, rfl, ?_, rfl, rfl, ?_⟩
  · exact bufio.Writer.runAll_wr _ _ _
  · have h := bufio.Writer.runAll_total bw w.heap (lib.ResponseWrite ctx.Response.toResponse).1
    rw [bufio.Writer.runAll_wr] at h
    exact h

/-- With a nil `ErrorHandler`, `writeErrorResponse` stops at the call. -/
theorem writeErrorResponse_nil (lib : fasthttp.Parser) (o : Oracle) (w : World)
    (bw : Option bufio.Writer) (ctx : RequestCtx) (name : Option Bytes) (e : Error)
    (h : w.s.ErrorHandler = none) :
    (writeErrorResponse lib o w bw ctx name e).ret = none ∧
    (writeErrorResponse lib o w bw ctx name e).w.trace = w.trace ++ [Event.ErrorHandler e] := by
  simp [writeErrorResponse, World.log, h]

/-- With an `ErrorHandler` installed and a writer passed in, `writeErrorResponse`
calls the handler, serialises one response through that same writer and
flushes it; no pool is touched. -/
theorem writeErrorResponse_some (lib : fasthttp.Parser) (o : Oracle) (w : World)
    (bw : bufio.Writer) (ctx : RequestCtx) (name : Option Bytes) (e : Error)
    (eh : RequestCtx → Error → RequestCtx) (h : w.s.ErrorHandler = some eh) :
    ∃ ctx1 bw1 resp ops,
      (writeErrorResponse lib o w (some bw) ctx name e).ret = some (ctx1, bw1) ∧
      (writeErrorResponse lib o w (some bw) ctx name e).w.trace
        = w.trace ++ [Event.ErrorHandler e, Event.ResponseWrite resp ops] ∧
      (writeErrorResponse lib o w (some bw) ctx name e).w.s = w.s ∧
      (writeErrorResponse lib o w (some bw) ctx name e).w.c = w.c ∧
      bw1.wr = bw.wr ∧ bw1.buf = [] ∧ ctx1.writer = ctx.writer ∧
      (writeErrorResponse lib o w (some bw) ctx name e).w.heap bw.wr
        = w.heap bw.wr ++ bw.buf ++ bufio.written ops := by
  simp only [writeErrorResponse, World.log, h]
  generalize hc : (match name with
      | some name =>
        ({ ctx.call (fun x => eh x e) with Response :=
            { (ctx.call (fun x => eh x e)).Response with
              Header := (ctx.call (fun x => eh x e)).Response.Header.SetServerBytes name } } : RequestCtx)
      | none => ctx.call (fun x => eh x e)) = c1
  have hcw : c1.writer = ctx.writer := by
    subst hc
    cases name <;> rfl
  obtain ⟨h1, h2, h3, h4, h5, h6, h7⟩ := writeResponse_spec lib
    { w with trace := w.trace ++ [Event.ErrorHandler e] } c1.SetConnectionClose bw
  refine ⟨_, _, c1.SetConnectionClose.Response,
    (lib.ResponseWrite c1.SetConnectionClose.Response.toResponse).1,
    rfl, ?_, ?_, ?_, ?_, ?_, ?_, ?_⟩
  · simp [h1]
  · exact h2
  · exact h3
  · rw [bufio.Writer.Flush_wr, h4]
  · exact bufio.Writer.Flush_buf _ _
  · rw [h5]; exact hcw
  · have := bufio.Writer.Flush_heap (writeResponse lib
      { w with trace := w.trace ++ [Event.ErrorHandler e] } c1.SetConnectionClose bw).bw
      (writeResponse lib
      { w with trace := w.trace ++ [Event.ErrorHandler e] } c1.SetConnectionClose bw).w.heap
    rw [h4] at this
    exact this.trans h7
/-- With a nil `Handler`, lines 67 to 88 stop at the call. -/
theorem Decode.finish_nil (lib : fasthttp.Parser) (w : World) (ctx : RequestCtx)
    (bw : bufio.Writer) (h : w.s.Handler = none) :
    (Decode.finish lib w ctx bw).exit = Exit.panic ∧
    (Decode.finish lib w ctx bw).w.trace = w.trace ++ [Event.Handler] := by
  simp [Decode.finish, World.log, h]

/-- With a `Handler` installed, lines 67 to 88 call it and serialise one
response; then either the serialiser fails (`log.Fatal`), or the writer is
flushed and released and the context is reset and released. -/
theorem Decode.finish_some (lib : fasthttp.Parser) (w : World) (ctx : RequestCtx)
    (bw : bufio.Writer) (hd : RequestHandler) (h : w.s.Handler = some hd)
    (hw : bw.wr = ctx.writer) :
    ∃ resp ops,
      (∃ e, (Decode.finish lib w ctx bw).exit = Exit.fatal e ∧
        (Decode.finish lib w ctx bw).w.trace
          = w.trace ++ [Event.Handler, Event.ResponseWrite resp ops] ∧
        (lib.ResponseWrite resp.toResponse).2 = some e) ∨
      (∃ bw1 ctx1,
        (Decode.finish lib w ctx bw).exit
          = Exit.returned (w.heap bw.wr ++ bw.buf ++ bufio.written ops) none ∧
        (Decode.finish lib w ctx bw).w.trace
          = w.trace ++ [Event.Handler, Event.ResponseWrite resp ops,
              Event.Put PoolId.writer, Event.Put PoolId.ctx] ∧
        (Decode.finish lib w ctx bw).w.s.writerPool = bw1 :: w.s.writerPool ∧
        (Decode.finish lib w ctx bw).w.s.ctxPool = ctx1 :: w.s.ctxPool ∧
        (Decode.finish lib w ctx bw).w.s.readerPool = w.s.readerPool ∧
        (Decode.finish lib w ctx bw).w.c = w.c ∧
        bw1.buf = [] ∧ bw1.wr = bw.wr ∧
        (Decode.finish lib w ctx bw).w.heap bw.wr
          = w.heap bw.wr ++ bw.buf ++ bufio.written ops ∧
        ctx1.c = none ∧ (∃ q, ctx1.Request = Request.Reset q) ∧
        (∃ q, ctx1.Response = Response.Reset q) ∧ ctx1.writer = bw1.wr) := by
  obtain ⟨h1, h2, h3, h4, h5, h6, h7⟩ := writeResponse_spec lib
    { w with trace := w.trace ++ [Event.Handler] } (ctx.call hd) bw
  have hfl := bufio.Writer.Flush_heap (writeResponse lib
      { w with trace := w.trace ++ [Event.Handler] } (ctx.call hd) bw).bw
      (writeResponse lib
      { w with trace := w.trace ++ [Event.Handler] } (ctx.call hd) bw).w.heap
  rw [h4, h7] at hfl
  have hcw : (writeResponse lib
      { w with trace := w.trace ++ [Event.Handler] } (ctx.call hd) bw).ctx.writer = bw.wr := by
    rw [h5]
    exact hw.symm
  refine ⟨(ctx.call hd).Response, (lib.ResponseWrite (ctx.call hd).Response.toResponse).1, ?_⟩
  simp only [Decode.finish, World.log, h]
  split
  · rename_i e he
    exact Or.inl ⟨e, rfl, by simp [h1], h6.symm.trans he⟩
  · rename_i he
    refine Or.inr ⟨_, _, ?_, ?_, rfl, rfl, rfl, ?_, ?_, ?_, ?_, rfl, ⟨_, rfl⟩, ?_, ?_⟩
    · rw [hcw, hfl]
    · simp [releaseCtx, releaseWriter, World.log, h1]
    · simp [releaseCtx, releaseWriter, World.log, h3]
    · exact bufio.Writer.Flush_buf _ _
    · rw [bufio.Writer.Flush_wr, h4]
    · simp only [releaseCtx, releaseWriter, World.log]
      exact hfl
    · rw [h5]
      exact ⟨_, rfl⟩
    · rw [bufio.Writer.Flush_wr, h4]
      exact hcw

/-! ## The whole of `Decode` -/

/-- On an empty readable buffer `Decode` resets the buffer and returns. -/
theorem Decode_empty (lib : fasthttp.Parser) (o : Oracle) (w : World) (h : w.c.Read = []) :
    Decode lib o w
      = { exit := Exit.returned [] none,
          w := { w with c := w.c.ResetBuffer, trace := w.trace ++ [Event.ResetBuffer] } } := by
  simp [Decode, World.log, h]

/-- The shape of every `Decode` call on a non-empty input: the events it adds
(`pe` the parser calls, `ee` the error path, `fin` lines 67 to 88), how it
ends, and, when it returns, what it leaves in the pools and the accumulator. -/
theorem Decode_nonempty (lib : fasthttp.Parser) (o : Oracle) (w : World)
    (hne : w.c.Read ≠ []) :
    ∃ (pe ee fin : List Event) (err : Option Error),
      (Decode lib o w).events w
        = [Event.ResetBuffer, Event.Get PoolId.ctx, Event.Get PoolId.reader] ++ pe
            ++ [Event.Put PoolId.reader, Event.Get PoolId.writer] ++ ee ++ fin ∧
      ((∃ e, pe = [Event.HeaderRead (some e)] ∧ err = some e) ∨
        pe = [Event.HeaderRead none,
              Event.ContinueReadBody fasthttp.DefaultMaxRequestBodySize w.s.GetOnly
                (!w.s.DisablePreParseMultipartForm) err]) ∧
      ((∃ e, err = some e ∧ w.s.ErrorHandler = none ∧ ee = [Event.ErrorHandler e] ∧ fin = [] ∧
          (Decode lib o w).exit = Exit.panic) ∨
        (((err = none ∧ ee = []) ∨
            (∃ e r1 o1, err = some e ∧ w.s.ErrorHandler ≠ none ∧
              ee = [Event.ErrorHandler e, Event.ResponseWrite r1 o1])) ∧
          ((w.s.Handler = none ∧ fin = [Event.Handler] ∧ (Decode lib o w).exit = Exit.panic) ∨
            (∃ r2 o2 e2, w.s.Handler ≠ none ∧ fin = [Event.Handler, Event.ResponseWrite r2 o2] ∧
              (Decode lib o w).exit = Exit.fatal e2 ∧
              (lib.ResponseWrite r2.toResponse).2 = some e2) ∨
            (∃ r2 o2 bw1 ctx1, w.s.Handler ≠ none ∧
              fin = [Event.Handler, Event.ResponseWrite r2 o2,
                Event.Put PoolId.writer, Event.Put PoolId.ctx] ∧
              (Decode lib o w).exit = Exit.returned (bytesSerialized (ee ++ fin)) none ∧
              (Decode lib o w).w.s.writerPool = bw1 :: (w.s.writerPool.Get o.writer).2 ∧
              (Decode lib o w).w.s.ctxPool = ctx1 :: (w.s.ctxPool.Get o.ctx).2 ∧
              bw1.buf = [] ∧
              (Decode lib o w).w.heap bw1.wr = bytesSerialized (ee ++ fin) ∧
              ctx1.c = none ∧ (∃ q, ctx1.Request = Request.Reset q) ∧
              (∃ q, ctx1.Response = Response.Reset q) ∧ ctx1.writer = bw1.wr)))) := by
  have hlen : ¬ (w.c.Read.length = 0) := fun h0 => hne (List.length_eq_zero.mp h0)
  obtain ⟨pe, ht, hpe⟩ := Decode.parse_trace lib o
    ({ w with c := w.c.ResetBuffer }.log Event.ResetBuffer) w.c.Read
  obtain ⟨f1, f2, f3, f4, f5, f6, f7, f8⟩ := Decode.parse_frame lib o
    ({ w with c := w.c.ResetBuffer }.log Event.ResetBuffer) w.c.Read
  simp only [Result.events, Decode, if_neg hlen]
  generalize Decode.parse lib o ({ w with c := w.c.ResetBuffer }.log Event.ResetBuffer) w.c.Read
    = p at ht hpe f1 f2 f3 f4 f5 f6 f7 f8
  simp only [World.log] at ht hpe f1 f2 f3 f4 f5 f6 f7 f8
  obtain ⟨perr, pctx, pbw, pw⟩ := p
  simp only at ht hpe f1 f2 f3 f4 f5 f6 f7 f8
  cases perr with
  | none =>
    simp only []
    cases hH : w.s.Handler with
    | none =>
      obtain ⟨g1, g2⟩ := Decode.finish_nil lib pw pctx pbw (f3.trans hH)
      refine ⟨pe, [], [Event.Handler], none, ?_, hpe,
        Or.inr ⟨Or.inl ⟨rfl, rfl⟩, Or.inl ⟨rfl, rfl, g1⟩⟩⟩
      rw [g2, ht]
      simp
    | some hd =>
      obtain ⟨r2, o2, hcase⟩ := Decode.finish_some lib pw pctx pbw hd (f3.trans hH) f7
      rcases hcase with ⟨e2, g1, g2, g0⟩ |
        ⟨bw1, ctx1, g1, g2, g3, g4, _, _, g7, g8, g9, g10, g11, g12, g13⟩
      · refine ⟨pe, [], [Event.Handler, Event.ResponseWrite r2 o2], none, ?_, hpe,
          Or.inr ⟨Or.inl ⟨rfl, rfl⟩, Or.inr (Or.inl ⟨r2, o2, e2, by simp, rfl, g1, g0⟩)⟩⟩
        rw [g2, ht]
        simp
      · refine ⟨pe, [], [Event.Handler, Event.ResponseWrite r2 o2,
            Event.Put PoolId.writer, Event.Put PoolId.ctx], none, ?_, hpe,
          Or.inr ⟨Or.inl ⟨rfl, rfl⟩, Or.inr (Or.inr ⟨r2, o2, bw1, ctx1, by simp, rfl,
            ?_, ?_, ?_, g7, ?_, g10, g11, g12, g13⟩)⟩⟩
        · rw [g2, ht]
          simp
        · rw [g1, f7, f8, f6]
          simp [bytesSerialized]
        · rw [g3, f2]
        · rw [g4, f1]
        · rw [g8, g9, f7, f8, f6]
          simp [bytesSerialized]
  | some e =>
    simp only []
    cases hE : w.s.ErrorHandler with
    | none =>
      obtain ⟨k1, k2⟩ := writeErrorResponse_nil lib o pw (some pbw) pctx
        (some (getBytes "serverName")) e (f4.trans hE)
      refine ⟨pe, [Event.ErrorHandler e], [], some e, ?_, hpe, Or.inl ⟨e, rfl, rfl, rfl, rfl, ?_⟩⟩
      · simp only [k1]
        rw [k2, ht]
        simp
      · simp only [k1]
    | some eh =>
      obtain ⟨ctx1, bw1, r1, o1, k1, k2, k3, _, k5, k6, k7, k8⟩ :=
        writeErrorResponse_some lib o pw pbw pctx (some (getBytes "serverName")) e eh
          (f4.trans hE)
      simp only [k1]
      generalize (writeErrorResponse lib o pw (some pbw) pctx
        (some (getBytes "serverName")) e).w = ew at k2 k3 k8
      have hbw : bw1.wr = ctx1.writer := by rw [k5, k7, f7]
      have hheap : ew.heap bw1.wr = bufio.written o1 := by
        rw [k5, k8, f7, f8, f6]
        simp
      have hee : (err : Option Error) → err = some e →
          (err = none ∧ [Event.ErrorHandler e, Event.ResponseWrite r1 o1] = []) ∨
          (∃ e0 r o, err = some e0 ∧ some eh ≠ none ∧
              [Event.ErrorHandler e, Event.ResponseWrite r1 o1]
                = [Event.ErrorHandler e0, Event.ResponseWrite r o]) :=
        fun err he => Or.inr ⟨e, r1, o1, he, by simp, rfl⟩
      cases hH : w.s.Handler with
      | none =>
        obtain ⟨g1, g2⟩ := Decode.finish_nil lib ew ctx1 bw1 ((k3 ▸ f3).trans hH)
        refine ⟨pe, [Event.ErrorHandler e, Event.ResponseWrite r1 o1], [Event.Handler], some e,
          ?_, hpe, Or.inr ⟨hee _ rfl, Or.inl ⟨rfl, rfl, g1⟩⟩⟩
        rw [g2, k2, ht]
        simp
      | some hd =>
        obtain ⟨r2, o2, hcase⟩ := Decode.finish_some lib ew ctx1 bw1 hd ((k3 ▸ f3).trans hH) hbw
        rcases hcase with ⟨e2, g1, g2, g0⟩ |
          ⟨bw2, ctx2, g1, g2, g3, g4, _, _, g7, g8, g9, g10, g11, g12, g13⟩
        · refine ⟨pe, [Event.ErrorHandler e, Event.ResponseWrite r1 o1],
            [Event.Handler, Event.ResponseWrite r2 o2], some e, ?_, hpe,
            Or.inr ⟨hee _ rfl, Or.inr (Or.inl ⟨r2, o2, e2, by simp, rfl, g1, g0⟩)⟩⟩
          rw [g2, k2, ht]
          simp
        · refine ⟨pe, [Event.ErrorHandler e, Event.ResponseWrite r1 o1],
            [Event.Handler, Event.ResponseWrite r2 o2,
              Event.Put PoolId.writer, Event.Put PoolId.ctx], some e, ?_, hpe,
            Or.inr ⟨hee _ rfl, Or.inr (Or.inr ⟨r2, o2, bw2, ctx2, by simp, rfl,
              ?_, ?_, ?_, g7, ?_, g10, g11, g12, g13⟩)⟩⟩
          · rw [g2, k2, ht]
            simp
          · rw [g1, hheap, k6]
            simp [bytesSerialized]
          · rw [g3, k3, f2]
          · rw [g4, k3, f1]
          · rw [g8, g9, hheap, k6]
            simp [bytesSerialized]

/-- With both handlers installed and a serialiser that never fails, every call
returns. -/
theorem Decode_returns (lib : fasthttp.Parser) (o : Oracle) (w : World)
    (hH : w.s.Handler ≠ none) (hEH : w.s.ErrorHandler ≠ none)
    (hlib : ∀ r, (lib.ResponseWrite r).2 = none) :
    ∃ out, (Decode lib o w).exit = Exit.returned out none := by
  by_cases hne : w.c.Read = []
  · rw [Decode_empty lib o w hne]
    exact ⟨[], rfl⟩
  · obtain ⟨pe, ee, fin, perr, _, _, hcase⟩ := Decode_nonempty lib o w hne
    rcases hcase with ⟨e, _, h0, _⟩ |
      ⟨_, ⟨h0, _⟩ | ⟨r2, _, e2, _, _, _, h0⟩ | ⟨_, _, _, _, _, _, hx, _⟩⟩
    · exact absurd h0 hEH
    · exact absurd h0 hH
    · rw [hlib] at h0
      cases h0
    · exact ⟨_, hx⟩

/-- Whenever parsing fails and both handlers are installed, the call runs the
error handler and the user handler, both. -/
theorem Decode_parse_error_calls_both (lib : fasthttp.Parser) (o : Oracle) (w : World)
    (hH : w.s.Handler ≠ none) (hEH : w.s.ErrorHandler ≠ none)
    (hp : parseError ((Decode lib o w).events w) ≠ none) :
    errorHandlerCalled ((Decode lib o w).events w) = true ∧
    handlerCalled ((Decode lib o w).events w) = true := by
  by_cases hne : w.c.Read = []
  · rw [Decode_empty lib o w hne] at hp
    simp [Result.events, parseError] at hp
  · obtain ⟨pe, ee, fin, perr, hev, hpe, hcase⟩ := Decode_nonempty lib o w hne
    rw [hev] at hp ⊢
    rcases hcase with ⟨e, rfl, h0, rfl, rfl, hx⟩ |
      ⟨hee, ⟨h0, rfl, hx⟩ | ⟨_, _, _, _, rfl, hx, _⟩ | ⟨r2, o2, bw1, ctx1, _, rfl, _⟩⟩
    · exact absurd h0 hEH
    · exact absurd h0 hH
    all_goals
      rcases hpe with ⟨e, rfl, rfl⟩ | rfl <;>
        rcases hee with ⟨he, rfl⟩ | ⟨e1, r1, o1, he, _, rfl⟩ <;>
        simp_all [errorHandlerCalled, handlerCalled, parseError]

/-- The body reader is called at most once, and always with
`fasthttp.DefaultMaxRequestBodySize`, the server's `GetOnly` and the negation
of its `DisablePreParseMultipartForm`; `MaxRequestBodySize` plays no part. -/
theorem Decode_bodyReaderArgs (lib : fasthttp.Parser) (o : Oracle) (w : World) :
    ∀ x ∈ bodyReaderArgs ((Decode lib o w).events w),
      x = (fasthttp.DefaultMaxRequestBodySize, w.s.GetOnly,
            !w.s.DisablePreParseMultipartForm) := by
  by_cases hne : w.c.Read = []
  · rw [Decode_empty lib o w hne]
    simp [Result.events, bodyReaderArgs]
  · obtain ⟨pe, ee, fin, perr, hev, hpe, hcase⟩ := Decode_nonempty lib o w hne
    rw [hev]
    rcases hcase with ⟨e, rfl, h0, rfl, rfl, hx⟩ |
      ⟨hee, ⟨h0, rfl, hx⟩ | ⟨_, _, _, _, rfl, hx, _⟩ | ⟨r2, o2, bw1, ctx1, _, rfl, _⟩⟩
    · rcases hpe with ⟨e, rfl, _⟩ | rfl <;> simp [bodyReaderArgs]
    all_goals
      rcases hpe with ⟨e, rfl, _⟩ | rfl <;>
        rcases hee with ⟨_, rfl⟩ | ⟨e1, r1, o1, _, _, rfl⟩ <;>
        simp [bodyReaderArgs]

/-! ## Pools, and a call served with recycled objects -/

/-- The parse error and the context after lines 43 to 62 are those of the two
parser calls made on the acquired context and the acquired reader. -/
theorem Decode.parse_eq (lib : fasthttp.Parser) (o : Oracle) (w : World) (buf : Bytes) :
    (Decode.parse lib o w buf).err
      = (Decode.parsed lib w.s
          { (acquireCtx w o.ctx).1 with reader := buf, writer := w.nextAddr + 1 }
          (w.s.reader o.reader buf)).1 ∧
    (Decode.parse lib o w buf).ctx
      = (Decode.parsed lib w.s
          { (acquireCtx w o.ctx).1 with reader := buf, writer := w.nextAddr + 1 }
          (w.s.reader o.reader buf)).2 := by
  simp only [Decode.parse, Decode.parsed, acquireCtx, acquireReader, acquireWriter,
    releaseReader, World.log, Server.reader]
  split <;> simp_all

/-- What lines 67 to 88 do to the server: configuration, handlers and reader pool
are untouched; unless the call returns, so are the context and writer pools;
when it returns, the context, reset and detached, and the writer are put back. -/
theorem Decode.finish_pools (lib : fasthttp.Parser) (w : World) (ctx : RequestCtx)
    (bw : bufio.Writer) :
    (Decode.finish lib w ctx bw).w.s.toServer = w.s.toServer ∧
    (Decode.finish lib w ctx bw).w.s.Handler = w.s.Handler ∧
    (Decode.finish lib w ctx bw).w.s.ErrorHandler = w.s.ErrorHandler ∧
    (Decode.finish lib w ctx bw).w.s.readerPool = w.s.readerPool ∧
    (((∀ out err, (Decode.finish lib w ctx bw).exit ≠ Exit.returned out err) ∧
        (Decode.finish lib w ctx bw).w.s.ctxPool = w.s.ctxPool ∧
        (Decode.finish lib w ctx bw).w.s.writerPool = w.s.writerPool) ∨
      (∃ hd bw1 out, w.s.Handler = some hd ∧
        (Decode.finish lib w ctx bw).exit = Exit.returned out none ∧
        (Decode.finish lib w ctx bw).w.s.ctxPool
          = { ctx.call hd with
              Request := (ctx.call hd).Request.Reset,
              Response := (ctx.call hd).Response.Reset,
              c := none } :: w.s.ctxPool ∧
        (Decode.finish lib w ctx bw).w.s.writerPool = bw1 :: w.s.writerPool)) := by
  cases hH : w.s.Handler with
  | none =>
    simp [Decode.finish, World.log, hH]
  | some hd =>
    simp only [Decode.finish, World.log, hH]
    split
    · refine ⟨rfl, ?_, ?_, rfl, Or.inl ⟨?_, rfl, rfl⟩⟩
      · exact hH
      · rfl
      · intro out err h
        cases h
    · refine ⟨rfl, ?_, ?_, rfl, Or.inr ⟨hd, _, _, rfl, rfl, rfl, rfl⟩⟩
      · exact hH
      · rfl

/-- With an `ErrorHandler` installed, the context and the writer that
`writeErrorResponse` leaves, and the bytes it has written; the server is
untouched. -/
theorem writeErrorResponse_ret (lib : fasthttp.Parser) (o : Oracle) (w : World)
    (bw : bufio.Writer) (ctx : RequestCtx) (e : Error)
    (eh : RequestCtx → Error → RequestCtx) (h : w.s.ErrorHandler = some eh) :
    ∃ bw1,
      (writeErrorResponse lib o w (some bw) ctx (some (getBytes "serverName")) e).ret
        = some ({ Decode.errorCtx eh ctx e with
                  Response := (Decode.errorCtx eh ctx e).Response.Reset }, bw1) ∧
      bw1.wr = bw.wr ∧ bw1.buf = [] ∧
      (writeErrorResponse lib o w (some bw) ctx (some (getBytes "serverName")) e).w.heap bw.wr
        = w.heap bw.wr ++ bw.buf
            ++ bufio.written (lib.ResponseWrite (Decode.errorCtx eh ctx e).Response.toResponse).1 ∧
      (writeErrorResponse lib o w (some bw) ctx (some (getBytes "serverName")) e).w.s = w.s := by
  obtain ⟨_, h2, _, h4, h5, _, h7⟩ := writeResponse_spec lib
    { w with trace := w.trace ++ [Event.ErrorHandler e] } (Decode.errorCtx eh ctx e) bw
  have hfl := bufio.Writer.Flush_heap (writeResponse lib
      { w with trace := w.trace ++ [Event.ErrorHandler e] } (Decode.errorCtx eh ctx e) bw).bw
      (writeResponse lib
      { w with trace := w.trace ++ [Event.ErrorHandler e] } (Decode.errorCtx eh ctx e) bw).w.heap
  rw [h4] at hfl
  refine ⟨((writeResponse lib
      { w with trace := w.trace ++ [Event.ErrorHandler e] } (Decode.errorCtx eh ctx e) bw).bw.Flush
      (writeResponse lib
      { w with trace := w.trace ++ [Event.ErrorHandler e] } (Decode.errorCtx eh ctx e) bw).w.heap).1,
    ?_, ?_, ?_, ?_, ?_⟩
  · simp only [writeErrorResponse, World.log, h]
    rfl
  · rw [bufio.Writer.Flush_wr, h4]
  · exact bufio.Writer.Flush_buf _ _
  · simp only [writeErrorResponse, World.log, h]
    exact hfl.trans h7
  · simp only [writeErrorResponse, World.log, h]
    exact h2

/-- Lines 43 to 62 leave the configuration alone and put the reader they used on
top of what the `Get` left in the reader pool. -/
theorem Decode.parse_pools (lib : fasthttp.Parser) (o : Oracle) (w : World) (buf : Bytes) :
    (Decode.parse lib o w buf).w.s.toServer = w.s.toServer ∧
    ∃ br, (Decode.parse lib o w buf).w.s.readerPool = br :: (w.s.readerPool.Get o.reader).2 ∧
      (lib.KeepsSize → br.size = (w.s.reader o.reader buf).size) := by
  simp only [Decode.parse, acquireCtx, acquireReader, acquireWriter, releaseReader, World.log,
    Server.reader, Pool.Put]
  split
  · refine ⟨rfl, _, rfl, fun hk => ?_⟩
    simp only []
    rw [hk.2, hk.1]
  · refine ⟨rfl, _, rfl, fun hk => ?_⟩
    simp only []
    rw [hk.1]

/-- The two parser calls change nothing of the context but the request. -/
theorem Decode.parsed_frame (lib : fasthttp.Parser) (s : Server) (c : RequestCtx)
    (br : bufio.Reader) :
    (Decode.parsed lib s c br).2.Response = c.Response ∧
    (Decode.parsed lib s c br).2.Request.keepBodyBuffer = c.Request.keepBodyBuffer ∧
    (Decode.parsed lib s c br).2.embedded = c.embedded ∧
    (Decode.parsed lib s c br).2.c = c.c ∧
    (Decode.parsed lib s c br).2.reader = c.reader ∧
    (Decode.parsed lib s c br).2.writer = c.writer := by
  unfold Decode.parsed
  split <;> exact ⟨rfl, rfl, rfl, rfl, rfl, rfl⟩

/-- With a nil `ErrorHandler`, `writeErrorResponse` leaves the server untouched. -/
theorem writeErrorResponse_nil_s (lib : fasthttp.Parser) (o : Oracle) (w : World)
    (bw : Option bufio.Writer) (ctx : RequestCtx) (name : Option Bytes) (e : Error)
    (h : w.s.ErrorHandler = none) :
    (writeErrorResponse lib o w bw ctx name e).w.s = w.s := by
  simp [writeErrorResponse, World.log, h]

/-- What a call on a non-empty input does to the server: the configuration and the
handlers stay; the reader is put back; the context (reset, detached, with the
flags of the acquired one) and the writer are put back exactly when the call
returns. -/
theorem Decode_pools (lib : fasthttp.Parser) (o : Oracle) (w : World) (hne : w.c.Read ≠ []) :
    ((Decode lib o w).w.s.toServer = w.s.toServer ∧
      (Decode lib o w).w.s.Handler = w.s.Handler ∧
      (Decode lib o w).w.s.ErrorHandler = w.s.ErrorHandler) ∧
    (∃ br, (Decode lib o w).w.s.readerPool = br :: (w.s.readerPool.Get o.reader).2 ∧
      (lib.KeepsSize → br.size = (w.s.reader o.reader w.c.Read).size)) ∧
    (((∀ out err, (Decode lib o w).exit ≠ Exit.returned out err) ∧
        (Decode lib o w).w.s.ctxPool = (w.s.ctxPool.Get o.ctx).2 ∧
        (Decode lib o w).w.s.writerPool = (w.s.writerPool.Get o.writer).2) ∨
      (∃ ctx1 bw1 out, (Decode lib o w).exit = Exit.returned out none ∧
        (Decode lib o w).w.s.ctxPool = ctx1 :: (w.s.ctxPool.Get o.ctx).2 ∧
        (Decode lib o w).w.s.writerPool = bw1 :: (w.s.writerPool.Get o.writer).2 ∧
        ctx1.c = none ∧
        ctx1.Request = { RequestCtx.zero.Request with
          keepBodyBuffer := (acquireCtx w o.ctx).1.Request.keepBodyBuffer } ∧
        ctx1.Response = { RequestCtx.zero.Response with
          keepBodyBuffer := (acquireCtx w o.ctx).1.Response.keepBodyBuffer })) := by
  have hlen : ¬ (w.c.Read.length = 0) := fun h0 => hne (List.length_eq_zero.mp h0)
  obtain ⟨_, e2⟩ := Decode.parse_eq lib o
    ({ w with c := w.c.ResetBuffer }.log Event.ResetBuffer) w.c.Read
  obtain ⟨q1, q2, _, _, _, _⟩ := Decode.parsed_frame lib
    ({ w with c := w.c.ResetBuffer }.log Event.ResetBuffer).s
    { (acquireCtx ({ w with c := w.c.ResetBuffer }.log Event.ResetBuffer) o.ctx).1 with
      reader := w.c.Read,
      writer := ({ w with c := w.c.ResetBuffer }.log Event.ResetBuffer).nextAddr + 1 }
    (({ w with c := w.c.ResetBuffer }.log Event.ResetBuffer).s.reader o.reader w.c.Read)
  rw [← e2] at q1 q2
  obtain ⟨f1, f2, f3, f4, _, _, _, _⟩ := Decode.parse_frame lib o
    ({ w with c := w.c.ResetBuffer }.log Event.ResetBuffer) w.c.Read
  obtain ⟨g1, br, g2, g3⟩ := Decode.parse_pools lib o
    ({ w with c := w.c.ResetBuffer }.log Event.ResetBuffer) w.c.Read
  simp only [Decode, if_neg hlen]
  generalize Decode.parse lib o ({ w with c := w.c.ResetBuffer }.log Event.ResetBuffer) w.c.Read
    = p at q1 q2 f1 f2 f3 f4 g1 g2 g3
  simp only [World.log] at q1 q2 f1 f2 f3 f4 g1 g2 g3
  change p.ctx.Response = (acquireCtx w o.ctx).1.Response at q1
  change p.ctx.Request.keepBodyBuffer = (acquireCtx w o.ctx).1.Request.keepBodyBuffer at q2
  obtain ⟨perr, pctx, pbw, pw⟩ := p
  simp only at q1 q2 f1 f2 f3 f4 g1 g2 g3
  cases perr with
  | none =>
    simp only []
    obtain ⟨a1, a2, a3, a4, a5⟩ := Decode.finish_pools lib pw pctx pbw
    refine ⟨⟨a1.trans g1, a2.trans f3, a3.trans f4⟩, ⟨br, a4.trans g2, g3⟩, ?_⟩
    rcases a5 with ⟨b1, b2, b3⟩ | ⟨hd, bw1, out, _, b1, b2, b3⟩
    · exact Or.inl ⟨b1, b2.trans f1, b3.trans f2⟩
    · refine Or.inr ⟨_, bw1, out, b1, b2.trans (by rw [f1]), b3.trans (by rw [f2]), rfl, ?_, ?_⟩
      · rw [← q2]
        rfl
      · rw [← q1]
        rfl
  | some e =>
    simp only []
    cases hE : w.s.ErrorHandler with
    | none =>
      obtain ⟨k1, _⟩ := writeErrorResponse_nil lib o pw (some pbw) pctx
        (some (getBytes "serverName")) e (f4.trans hE)
      have k2 := writeErrorResponse_nil_s lib o pw (some pbw) pctx
        (some (getBytes "serverName")) e (f4.trans hE)
      simp only [k1]
      rw [k2]
      refine ⟨⟨g1, f3, f4.trans hE⟩, ⟨br, g2, g3⟩, Or.inl ⟨?_, f1, f2⟩⟩
      intro out err h
      cases h
    | some eh =>
      obtain ⟨bw1, k1, _, _, _, k5⟩ := writeErrorResponse_ret lib o pw pbw pctx e eh
        (f4.trans hE)
      simp only [k1]
      obtain ⟨a1, a2, a3, a4, a5⟩ := Decode.finish_pools lib
        (writeErrorResponse lib o pw (some pbw) pctx (some (getBytes "serverName")) e).w
        { Decode.errorCtx eh pctx e with Response := (Decode.errorCtx eh pctx e).Response.Reset }
        bw1
      rw [k5] at a1 a2 a3 a4 a5
      refine ⟨⟨a1.trans g1, a2.trans f3, (a3.trans f4).trans hE⟩, ⟨br, a4.trans g2, g3⟩, ?_⟩
      rcases a5 with ⟨b1, b2, b3⟩ | ⟨hd, bw2, out, _, b1, b2, b3⟩
      · exact Or.inl ⟨b1, b2.trans f1, b3.trans f2⟩
      · refine Or.inr ⟨_, bw2, out, b1, b2.trans (by rw [f1]), b3.trans (by rw [f2]), rfl,
          ?_, ?_⟩
        · rw [← q2]
          rfl
        · rw [← q1]
          rfl

/-- Claim C1, evaluated on the code: a malformed request fails to parse, the
error handler is called, and the user handler is called as well (the claim
says it is not); the output holds two responses, the error handler's and the
user handler's. -/
theorem Decode_malformed_calls_user_handler :
    parseError ((Decode Example.lib Example.miss Example.malformed).events Example.malformed)
      = some "malformed request" ∧
    errorHandlerCalled
      ((Decode Example.lib Example.miss Example.malformed).events Example.malformed) = true ∧
    handlerCalled
      ((Decode Example.lib Example.miss Example.malformed).events Example.malformed) = true ∧
    (responsesWritten
      ((Decode Example.lib Example.miss Example.malformed).events Example.malformed)).map
        (fun r => (r.Header.statusCode, r.body)) = [(400, [98, 97, 100]), (200, [111, 107])] := by
  decide

/-- Claim C2, evaluated on the code: on a malformed request, with an error handler
that leaves the Connection header alone, neither of the two responses the call
serialises has `Connection: close` set, and the output carries no such byte;
the flag is set on the response of the embedded `fasthttp.RequestCtx`, which
is never serialised. -/
theorem Decode_malformed_writes_no_connection_close :
    (∀ ctx e, (Example.errorHandler ctx e).Response.Header.connectionClose
        = ctx.Response.Header.connectionClose) ∧
    parseError ((Decode Example.lib Example.miss Example.malformed).events Example.malformed)
      = some "malformed request" ∧
    (responsesWritten
      ((Decode Example.lib Example.miss Example.malformed).events Example.malformed)).map
        (fun r => r.Header.connectionClose) = [false, false] ∧
    (Decode Example.lib Example.miss Example.malformed).exit
      = Exit.returned [1, 144, 98, 97, 100, 0, 200, 111, 107] none ∧
    (Decode Example.lib Example.miss Example.malformed).w.s.ctxPool.map
      (fun c => c.embedded.Response.Header.connectionClose) = [true] := by
  refine ⟨fun _ _ => rfl, ?_, ?_, ?_, ?_⟩ <;> decide

/-- Claim C3, evaluated on the code: with `MaxRequestBodySize = 1024` and a
request declaring a body of 2000 bytes, the body reader is given the limit
4194304 (`fasthttp.DefaultMaxRequestBodySize`), no parse error is reported and
the error handler is not called, although the same body reader rejects that
request when it is given the limit 1024. -/
theorem Decode_ignores_MaxRequestBodySize :
    Example.limited.s.MaxRequestBodySize = 1024 ∧
    bodyReaderArgs ((Decode Example.lib Example.miss Example.limited).events Example.limited)
      = [(4194304, false, true)] ∧
    parseError ((Decode Example.lib Example.miss Example.limited).events Example.limited)
      = none ∧
    errorHandlerCalled
      ((Decode Example.lib Example.miss Example.limited).events Example.limited) = false ∧
    (Example.ContinueReadBody
      { Header := { method := [80], requestURI := [], contentLength := 2000,
                    connectionClose := false, h := [] }, body := [] }
      { size := 4096, buffered := [], rd := [] } 1024 false true).2.2
      = some "body too large" := by
  decide!

/-- Claim C4: on a connection whose readable buffer is empty, `Decode` returns
empty output and a nil error; the only call it makes is `c.ResetBuffer()`, so
neither handler is called and nothing is taken from a pool; the three pools
are unchanged and the connection's buffer is reset. -/
theorem Decode_empty_buffer (lib : fasthttp.Parser) (o : Oracle) (w : World)
    (h : w.c.Read = []) :
    (Decode lib o w).exit = Exit.returned [] none ∧
    (Decode lib o w).events w = [Event.ResetBuffer] ∧
    handlerCalled ((Decode lib o w).events w) = false ∧
    errorHandlerCalled ((Decode lib o w).events w) = false ∧
    (∀ p, gets p ((Decode lib o w).events w) = 0) ∧
    (Decode lib o w).w.s.ctxPool = w.s.ctxPool ∧
    (Decode lib o w).w.s.readerPool = w.s.readerPool ∧
    (Decode lib o w).w.s.writerPool = w.s.writerPool ∧
    (Decode lib o w).w.c = w.c.ResetBuffer ∧
    (Decode lib o w).w.c.Read = [] := by
  rw [Decode_empty lib o w h]
  simp [Result.events, handlerCalled, errorHandlerCalled, gets, Conn.Read, Conn.ResetBuffer]

/-- Witness of C4: an empty read on a server whose pools hold recycled objects. -/
theorem Decode_empty_buffer_witness :
    ((Decode Example.lib Example.miss Example.get).w.deliver []).c.Read = [] ∧
    (Decode Example.lib Example.hit
      ((Decode Example.lib Example.miss Example.get).w.deliver [])).exit
        = Exit.returned [] none ∧
    (Decode Example.lib Example.hit
      ((Decode Example.lib Example.miss Example.get).w.deliver [])).w.s.ctxPool
        = (Decode Example.lib Example.miss Example.get).w.s.ctxPool :=
  ⟨rfl,
    (Decode_empty_buffer Example.lib Example.hit
      ((Decode Example.lib Example.miss Example.get).w.deliver []) rfl).1,
    (Decode_empty_buffer Example.lib Example.hit
      ((Decode Example.lib Example.miss Example.get).w.deliver []) rfl).2.2.2.2.2.1⟩

/-- Claim C5: for every connection, with or without an attached context, and every
byte slice `buf`, `Encode` returns exactly `buf` and a nil error. -/
theorem Encode_returns_buf (hc : Server) (c : Conn) (buf : Bytes) :
    Encode hc c buf = (buf, none) := by
  unfold Encode
  split <;> rfl

/-- Counterexample to C8 as stated: the context that the call on a malformed
request puts back holds, in its embedded `fasthttp.RequestCtx`, a response
with `Connection: close` set; that response is not reset. -/
theorem Decode_pooled_embedded_not_reset :
    (Decode Example.lib Example.miss Example.malformed).w.s.ctxPool = [Example.recycled] ∧
    Example.recycled.embedded.Response.Header.connectionClose = true ∧
    Example.recycled.embedded.Response ≠ Example.recycled.embedded.Response.Reset := by
  decide

/-- Claim C8, amended: whenever `Decode` puts a context back into the context
pool, that context has a nil connection reference and its `Request` and
`Response` fields hold the reset (zero) request and response; nothing is
said of its embedded `fasthttp.RequestCtx`. On a pool hit `acquireCtx`
returns the cached context changed only in its connection reference, which
is the supplied connection. -/
theorem Decode_released_ctx_reset :
    (∀ (lib : fasthttp.Parser) (o : Oracle) (w : World),
      0 < puts PoolId.ctx ((Decode lib o w).events w) →
      ∃ ctx, (Decode lib o w).w.s.ctxPool = ctx :: (w.s.ctxPool.Get o.ctx).2 ∧
        ctx.c = none ∧
        ctx.Request.toRequest = RequestCtx.zero.Request.toRequest ∧
        ctx.Response.toResponse = RequestCtx.zero.Response.toResponse) ∧
    (∀ (w : World) (pick : Option Nat) (cached : RequestCtx) (rest : Pool RequestCtx),
      w.s.ctxPool.Get pick = (some cached, rest) →
      (acquireCtx w pick).1 = { cached with c := some w.c.id } ∧
      (acquireCtx w pick).2.s.ctxPool = rest) := by
  constructor
  · intro lib o w hput
    by_cases hne : w.c.Read = []
    · rw [Decode_empty lib o w hne] at hput
      simp [Result.events, puts] at hput
    · obtain ⟨pe, ee, fin, perr, hev, hpe, hcase⟩ := Decode_nonempty lib o w hne
      rw [hev] at hput
      obtain ⟨_, _, hpools⟩ := Decode_pools lib o w hne
      rcases hcase with ⟨e, _, _, rfl, rfl, hx⟩ |
        ⟨hee, ⟨_, rfl, hx⟩ | ⟨_, _, _, _, rfl, hx, _⟩ | ⟨r2, o2, bw1, ctx1, _, rfl, hx, _⟩⟩
      · exfalso
        rcases hpe with ⟨e, rfl, _⟩ | rfl <;> simp [puts] at hput
      · exfalso
        rcases hpe with ⟨e, rfl, _⟩ | rfl <;>
          rcases hee with ⟨_, rfl⟩ | ⟨e1, r1, o1, _, _, rfl⟩ <;> simp [puts] at hput
      · exfalso
        rcases hpe with ⟨e, rfl, _⟩ | rfl <;>
          rcases hee with ⟨_, rfl⟩ | ⟨e1, r1, o1, _, _, rfl⟩ <;> simp [puts] at hput
      · rcases hpools with ⟨hno, _, _⟩ | ⟨c1, _, _, _, b2, _, b4, b5, b6⟩
        · exact absurd hx (hno _ _)
        · refine ⟨c1, b2, b4, ?_, ?_⟩
          · rw [b5]
          · rw [b6]
  · intro w pick cached rest h
    simp [acquireCtx, World.log, h]

/-- Witness of C8: a POST request whose body the handler echoes, so the request
was filled in before the context was released; and the pool hit of the call
that follows a malformed request on connection 7. -/
theorem Decode_released_ctx_reset_witness :
    ((Decode Example.lib Example.miss Example.echoPost).exit
        = Exit.returned [0, 200, 5] none ∧
      0 < puts PoolId.ctx
        ((Decode Example.lib Example.miss Example.echoPost).events Example.echoPost) ∧
      ∃ ctx, (Decode Example.lib Example.miss Example.echoPost).w.s.ctxPool
          = ctx :: (Example.echoPost.s.ctxPool.Get Example.miss.ctx).2 ∧
        ctx.c = none ∧
        ctx.Request.toRequest = RequestCtx.zero.Request.toRequest ∧
        ctx.Response.toResponse = RequestCtx.zero.Response.toResponse) ∧
    ((Decode Example.lib Example.miss Example.malformed).w.s.ctxPool.Get (some 0)
        = (some Example.recycled, []) ∧
      (acquireCtx (Decode Example.lib Example.miss Example.malformed).w (some 0)).1
        = { Example.recycled with
            c := some (Decode Example.lib Example.miss Example.malformed).w.c.id } ∧
      (acquireCtx (Decode Example.lib Example.miss Example.malformed).w (some 0)).2.s.ctxPool
        = []) :=
  ⟨⟨by decide, by decide,
      Decode_released_ctx_reset.1 Example.lib Example.miss Example.echoPost (by decide)⟩,
    by decide,
    Decode_released_ctx_reset.2 (Decode Example.lib Example.miss Example.malformed).w
      (some 0) Example.recycled [] (by decide)⟩

/-- Claim C9: whenever `Decode` returns a buffered writer to the writer pool, on
the success path and on the parse-error path alike, that writer has been
flushed: its buffered byte count is zero, its sink is the accumulator of the
released context, and that accumulator holds all the bytes written during the
call. Nothing is written after `releaseWriter`, so the state after the call is
the state at that moment. -/
theorem Decode_released_writer_flushed (lib : fasthttp.Parser) (o : Oracle) (w : World)
    (hput : 0 < puts PoolId.writer ((Decode lib o w).events w)) :
    ∃ bw ctx,
      (Decode lib o w).w.s.writerPool = bw :: (w.s.writerPool.Get o.writer).2 ∧
      (Decode lib o w).w.s.ctxPool = ctx :: (w.s.ctxPool.Get o.ctx).2 ∧
      bw.Buffered = 0 ∧ bw.wr = ctx.writer ∧
      (Decode lib o w).w.heap ctx.writer = bytesSerialized ((Decode lib o w).events w) := by
  by_cases hne : w.c.Read = []
  · rw [Decode_empty lib o w hne] at hput
    simp [Result.events, puts] at hput
  · obtain ⟨pe, ee, fin, perr, hev, hpe, hcase⟩ := Decode_nonempty lib o w hne
    rw [hev] at hput ⊢
    rcases hcase with ⟨e, _, _, rfl, rfl, hx⟩ |
      ⟨hee, ⟨_, rfl, hx⟩ | ⟨_, _, _, _, rfl, hx, _⟩ |
        ⟨r2, o2, bw1, ctx1, _, rfl, hx, hwp, hcp, hbuf, hheap, _, _, _, hwr⟩⟩
    · exfalso
      rcases hpe with ⟨e, rfl, _⟩ | rfl <;> simp [puts] at hput
    · exfalso
      rcases hpe with ⟨e, rfl, _⟩ | rfl <;>
        rcases hee with ⟨_, rfl⟩ | ⟨e1, r1, o1, _, _, rfl⟩ <;> simp [puts] at hput
    · exfalso
      rcases hpe with ⟨e, rfl, _⟩ | rfl <;>
        rcases hee with ⟨_, rfl⟩ | ⟨e1, r1, o1, _, _, rfl⟩ <;> simp [puts] at hput
    · refine ⟨bw1, ctx1, hwp, hcp, ?_, hwr.symm, ?_⟩
      · simp [bufio.Writer.Buffered, hbuf]
      · rw [hwr, hheap]
        rcases hpe with ⟨e, rfl, _⟩ | rfl <;>
          rcases hee with ⟨_, rfl⟩ | ⟨e1, r1, o1, _, _, rfl⟩ <;>
          simp [bytesSerialized]

/-- Witness of C9: the success path (a GET request) and the parse-error path (a
malformed request). -/
theorem Decode_released_writer_flushed_witness :
    (0 < puts PoolId.writer
      ((Decode Example.lib Example.miss Example.get).events Example.get) ∧
      ∃ bw ctx,
        (Decode Example.lib Example.miss Example.get).w.s.writerPool
          = bw :: (Example.get.s.writerPool.Get Example.miss.writer).2 ∧
        (Decode Example.lib Example.miss Example.get).w.s.ctxPool
          = ctx :: (Example.get.s.ctxPool.Get Example.miss.ctx).2 ∧
        bw.Buffered = 0 ∧ bw.wr = ctx.writer ∧
        (Decode Example.lib Example.miss Example.get).w.heap ctx.writer
          = bytesSerialized
              ((Decode Example.lib Example.miss Example.get).events Example.get)) ∧
    (0 < puts PoolId.writer
      ((Decode Example.lib Example.miss Example.malformed).events Example.malformed) ∧
      ∃ bw ctx,
        (Decode Example.lib Example.miss Example.malformed).w.s.writerPool
          = bw :: (Example.malformed.s.writerPool.Get Example.miss.writer).2 ∧
        (Decode Example.lib Example.miss Example.malformed).w.s.ctxPool
          = ctx :: (Example.malformed.s.ctxPool.Get Example.miss.ctx).2 ∧
        bw.Buffered = 0 ∧ bw.wr = ctx.writer ∧
        (Decode Example.lib Example.miss Example.malformed).w.heap ctx.writer
          = bytesSerialized
              ((Decode Example.lib Example.miss Example.malformed).events
                Example.malformed)) :=
  ⟨⟨by decide,
      Decode_released_writer_flushed Example.lib Example.miss Example.get (by decide)⟩,
    ⟨by decide,
      Decode_released_writer_flushed Example.lib Example.miss Example.malformed (by decide)⟩⟩

/-- The error handler is called exactly on a non-empty input that fails to parse;
with a nil `ErrorHandler` such a call panics before the user handler. -/
theorem Decode_handlers (lib : fasthttp.Parser) (o : Oracle) (w : World) :
    (errorHandlerCalled ((Decode lib o w).events w) = true ↔
      (w.c.Read ≠ [] ∧ parseError ((Decode lib o w).events w) ≠ none)) ∧
    (w.s.ErrorHandler = none → w.c.Read ≠ [] →
      parseError ((Decode lib o w).events w) ≠ none →
      (Decode lib o w).exit = Exit.panic ∧
        handlerCalled ((Decode lib o w).events w) = false) := by
  by_cases hne : w.c.Read = []
  · rw [Decode_empty lib o w hne]
    simp [Result.events, errorHandlerCalled, parseError, hne]
  · obtain ⟨pe, ee, fin, perr, hev, hpe, hcase⟩ := Decode_nonempty lib o w hne
    rw [hev]
    rcases hcase with ⟨e, rfl, hEH, rfl, rfl, hx⟩ |
      ⟨hee, ⟨_, rfl, hx⟩ | ⟨_, _, _, _, rfl, hx, _⟩ | ⟨r2, o2, bw1, ctx1, _, rfl, _⟩⟩
    · rcases hpe with ⟨e, rfl, _⟩ | rfl <;>
        simp [errorHandlerCalled, handlerCalled, parseError, hne, hx]
    all_goals
      rcases hpe with ⟨e, rfl, rfl⟩ | rfl <;>
        rcases hee with ⟨he, rfl⟩ | ⟨e1, r1, o1, he, hEH, rfl⟩ <;>
        simp_all [errorHandlerCalled, handlerCalled, parseError]

/-- Claim C10: `Decode` calls `s.ErrorHandler` exactly when header or body parsing
of a non-empty input fails; the server that `serve` constructs has `Handler`
installed and `ErrorHandler` nil; hence on a server built by `serve`
(whatever its pools hold) every `Decode` of a non-empty input that fails to
parse calls a nil function value and panics, while a `Decode` whose input
parses never calls `ErrorHandler`. -/
theorem serve_leaves_ErrorHandler_nil :
    (∀ (lib : fasthttp.Parser) (o : Oracle) (w : World),
      errorHandlerCalled ((Decode lib o w).events w) = true ↔
        (w.c.Read ≠ [] ∧ parseError ((Decode lib o w).events w) ≠ none)) ∧
    (∀ (app : App) (addr : String),
      (serve app addr).codec.Handler = app.Handler ∧
      (serve app addr).codec.ErrorHandler = none) ∧
    (∀ (lib : fasthttp.Parser) (o : Oracle) (w : World) (app : App) (addr : String)
        (cp : Pool RequestCtx) (rp : Pool bufio.Reader) (wp : Pool bufio.Writer),
      w.s = { (serve app addr).codec with ctxPool := cp, readerPool := rp, writerPool := wp } →
      w.c.Read ≠ [] →
      parseError ((Decode lib o w).events w) ≠ none →
      errorHandlerCalled ((Decode lib o w).events w) = true ∧
        w.s.ErrorHandler = none ∧ (Decode lib o w).exit = Exit.panic) ∧
    (∀ (lib : fasthttp.Parser) (o : Oracle) (w : World),
      parseError ((Decode lib o w).events w) = none →
      errorHandlerCalled ((Decode lib o w).events w) = false) := by
  refine ⟨fun lib o w => (Decode_handlers lib o w).1, fun app addr => ⟨rfl, rfl⟩, ?_, ?_⟩
  · intro lib o w app addr cp rp wp hs hne hp
    have hnil : w.s.ErrorHandler = none := by rw [hs]; rfl
    exact ⟨(Decode_handlers lib o w).1.mpr ⟨hne, hp⟩, hnil,
      ((Decode_handlers lib o w).2 hnil hne hp).1⟩
  · intro lib o w hp
    cases hc : errorHandlerCalled ((Decode lib o w).events w) with
    | false => rfl
    | true => exact absurd hp ((Decode_handlers lib o w).1.mp hc).2

/-- Witness of C10: a malformed request on the server that `serve` builds. -/
theorem serve_leaves_ErrorHandler_nil_witness :
    Example.served.c.Read ≠ [] ∧
    parseError ((Decode Example.lib Example.miss Example.served).events Example.served)
      ≠ none ∧
    errorHandlerCalled
      ((Decode Example.lib Example.miss Example.served).events Example.served) = true ∧
    Example.served.s.ErrorHandler = none ∧
    (Decode Example.lib Example.miss Example.served).exit = Exit.panic :=
  ⟨by decide, by decide,
    serve_leaves_ErrorHandler_nil.2.2.1 Example.lib Example.miss Example.served Example.app
      "localhost:3000" [] [] [] rfl (by decide) (by decide)⟩

end Fiber
